import Mathlib

/-!
Verification of the answer-normalization and local-correctness-evaluation
subsystem of the quiz client (`src/app/quiz/[id].tsx`).

The file `[id].tsx` contains two complete copies of the subsystem:

* copy 1 (lines 111-405): `normalizeOptions`, `parseCorrectAnswer`,
  `getSingleCorrectAnswerText`, `isAnswerCorrect`, `prepareAnswersForSubmit`;
* copy 2 (lines 1580-1695, 2061-2093): `normalizeOptions` (variant),
  `getNormalizedCorrectAnswer`, `getNormalizedSingleAnswer`,
  `prepareAnswersForSubmit` (variant), `isAnswerCorrect` (variant).

Copy-1 functions keep their source names below; copy-2 variants get a `V2`
suffix.  JavaScript runtime behaviour is embedded explicitly:
strings are Lean `String`s, `trim`/`toLowerCase` are modelled on the
character lists (ASCII case folding, the JS whitespace set restricted to its
ASCII members), `JSON.parse` is a fuel-based recursive-descent parser
returning `Option Json`, and JS truthiness is modelled per value shape.
-/

namespace QuizApp

/-! ### JS string primitives -/

/-- ASCII members of the JS WhiteSpace/LineTerminator set recognised by
`String.prototype.trim` (space, tab, LF, CR, VT, FF). -/
def isJsWS (c : Char) : Bool :=
  c = ' ' || c = '\t' || c = '\n' || c = '\r' || c = Char.ofNat 11 || c = Char.ofNat 12

/-- Character-list version of `trim`: drop JS whitespace from both ends. -/
def trimChars (l : List Char) : List Char :=
  ((l.dropWhile isJsWS).reverse.dropWhile isJsWS).reverse

/-- Model of JS `s.trim()`. -/
def strTrim (s : String) : String := ⟨trimChars s.data⟩

/-- Model of JS `s.toLowerCase()` (ASCII case folding, which is all the
source relies on). -/
def strLower (s : String) : String := ⟨s.data.map Char.toLower⟩

/-- Code-unit lexicographic comparison of character lists, as used by the
default JS `Array.prototype.sort` comparator. -/
def charListLt : List Char → List Char → Bool
  | [], [] => false
  | [], _ :: _ => true
  | _ :: _, [] => false
  | a :: as, b :: bs => if a < b then true else if b < a then false else charListLt as bs

/-- JS default string ordering. -/
def strLt (a b : String) : Bool := charListLt a.data b.data

/-- Digits of a character list as a natural number; `none` when the list is
empty or contains a non-digit. -/
def digitsToNat (l : List Char) : Option Nat :=
  if l = [] then none
  else if l.all (·.isDigit) then
    some (l.foldl (fun a c => a * 10 + (c.toNat - 48)) 0)
  else none

/-- Model of JS `Number(s)` restricted to integral results: `""` and
whitespace-only strings give `0`, an optional sign followed by digits gives
that integer, anything else (including fractional lexemes) is treated as
`NaN` (`none`).  The source only feeds strings of these shapes into the
numeric-index branches. -/
def jsNumberInt (s : String) : Option Int :=
  match trimChars s.data with
  | [] => some 0
  | '-' :: rest => (digitsToNat rest).map (fun n => -(n : Int))
  | '+' :: rest => (digitsToNat rest).map (fun n => (n : Int))
  | l => (digitsToNat l).map (fun n => (n : Int))

/-! ### JSON values and `JSON.parse` -/

/-- JSON values as produced by `JSON.parse`.  Numbers keep their source
lexeme (the claims only ever exercise integral numbers). -/
inductive Json where
  | jnull
  | jbool (b : Bool)
  | jnum (lexeme : String)
  | jstr (s : String)
  | jarr (elems : List Json)
  | jobj (fields : List (String × Json))
deriving Repr, BEq

mutual

/-- JS `String(v)` on a parsed JSON value (arrays join element strings with
commas, objects display as `[object Object]`). -/
def jsString : Json → String
  | .jnull => "null"
  | .jbool b => if b then "true" else "false"
  | .jnum l => l
  | .jstr s => s
  | .jarr xs => String.intercalate "," (jsStringList xs)
  | .jobj _ => "[object Object]"

/-- `jsString` mapped over a list of values. -/
def jsStringList : List Json → List String
  | [] => []
  | x :: xs => jsString x :: jsStringList xs

end

/-- JS truthiness of a parsed JSON value (a numeric lexeme is falsy exactly
when all its digits are zero). -/
def jsTruthy : Json → Bool
  | .jnull => false
  | .jbool b => b
  | .jnum l => !((l.data.filter (·.isDigit)).all (· = '0'))
  | .jstr s => s ≠ ""
  | .jarr _ => true
  | .jobj _ => true

/-- Strict equality `j === s` between a parsed JSON value and a string. -/
def jsEqStr (j : Json) (s : String) : Bool :=
  match j with
  | .jstr t => t = s
  | _ => false

/-- JSON insignificant whitespace. -/
def isJsonWS (c : Char) : Bool := c = ' ' || c = '\t' || c = '\n' || c = '\r'

/-- Skip JSON whitespace. -/
def skipWs (l : List Char) : List Char := l.dropWhile isJsonWS

/-- Parse the body of a JSON string literal (after the opening quote),
handling the single-character escapes.  `\uXXXX` escapes are treated as a
parse failure; no claim exercises them. -/
def pStringChars : Nat → List Char → Option (List Char × List Char)
  | 0, _ => none
  | _, [] => none
  | fuel + 1, c :: rest =>
    if c = '"' then some ([], rest)
    else if c = '\\' then
      match rest with
      | [] => none
      | e :: rest2 =>
        let esc : Option Char :=
          if e = '"' then some '"'
          else if e = '\\' then some '\\'
          else if e = '/' then some '/'
          else if e = 'n' then some '\n'
          else if e = 't' then some '\t'
          else if e = 'r' then some '\r'
          else if e = 'b' then some (Char.ofNat 8)
          else if e = 'f' then some (Char.ofNat 12)
          else none
        match esc with
        | some ch => (pStringChars fuel rest2).map (fun p => (ch :: p.1, p.2))
        | none => none
    else (pStringChars fuel rest).map (fun p => (c :: p.1, p.2))

/-- Parse a JSON number lexeme: optional minus sign, digits, optional
fraction.  Exponents are not recognised (treated as trailing garbage and
hence overall parse failure); no claim exercises them. -/
def pNumber (l : List Char) : Option (String × List Char) :=
  let signAndRest : List Char × List Char :=
    match l with
    | '-' :: r => (['-'], r)
    | _ => ([], l)
  let intSpan := signAndRest.2.span (·.isDigit)
  if intSpan.1 = [] then none
  else
    let fracSpan : List Char × List Char :=
      match intSpan.2 with
      | '.' :: r =>
        let ds := r.span (·.isDigit)
        if ds.1 = [] then ([], intSpan.2) else ('.' :: ds.1, ds.2)
      | _ => ([], intSpan.2)
    some (⟨signAndRest.1 ++ intSpan.1 ++ fracSpan.1⟩, fracSpan.2)

/-- Check for a literal keyword and return the remainder. -/
def pKeyword (kw : List Char) (l : List Char) : Option (List Char) :=
  if kw.isPrefixOf l then some (l.drop kw.length) else none

mutual

/-- Parse one JSON value. -/
def pValue : Nat → List Char → Option (Json × List Char)
  | 0, _ => none
  | fuel + 1, input =>
    match skipWs input with
    | [] => none
    | c :: rest =>
      if c = 'n' then (pKeyword ['u', 'l', 'l'] rest).map (fun r => (Json.jnull, r))
      else if c = 't' then (pKeyword ['r', 'u', 'e'] rest).map (fun r => (Json.jbool true, r))
      else if c = 'f' then (pKeyword ['a', 'l', 's', 'e'] rest).map (fun r => (Json.jbool false, r))
      else if c = '"' then
        (pStringChars (rest.length + 1) rest).map (fun p => (Json.jstr ⟨p.1⟩, p.2))
      else if c = '[' then
        match skipWs rest with
        | ']' :: r2 => some (Json.jarr [], r2)
        | r2 => (pElems fuel r2).map (fun p => (Json.jarr p.1, p.2))
      else if c = Char.ofNat 123 then
        match skipWs rest with
        | r2 =>
          if r2.head? = some (Char.ofNat 125) then some (Json.jobj [], r2.tail)
          else (pMembers fuel r2).map (fun p => (Json.jobj p.1, p.2))
      else (pNumber (c :: rest)).map (fun p => (Json.jnum p.1, p.2))

/-- Parse the elements of a non-empty JSON array (after the opening
bracket), up to and including the closing bracket. -/
def pElems : Nat → List Char → Option (List Json × List Char)
  | 0, _ => none
  | fuel + 1, input =>
    match pValue fuel input with
    | none => none
    | some (v, r) =>
      match skipWs r with
      | ',' :: r2 => (pElems fuel r2).map (fun p => (v :: p.1, p.2))
      | ']' :: r2 => some ([v], r2)
      | _ => none

/-- Parse the members of a non-empty JSON object (after the opening brace),
up to and including the closing brace. -/
def pMembers : Nat → List Char → Option (List (String × Json) × List Char)
  | 0, _ => none
  | fuel + 1, input =>
    match skipWs input with
    | '"' :: rest =>
      match pStringChars (rest.length + 1) rest with
      | none => none
      | some (key, r) =>
        match skipWs r with
        | ':' :: r2 =>
          match pValue fuel r2 with
          | none => none
          | some (v, r3) =>
            match skipWs r3 with
            | ',' :: r4 => (pMembers fuel r4).map (fun p => ((⟨key⟩, v) :: p.1, p.2))
            | r4 =>
              if r4.head? = some (Char.ofNat 125) then some ([(⟨key⟩, v)], r4.tail)
              else none
        | _ => none
    | _ => none

end

/-- Model of JS `JSON.parse(s)`: `none` plays the role of the thrown
`SyntaxError`. -/
def jsonParse (s : String) : Option Json :=
  match pValue (s.length + 1) s.data with
  | some (v, r) => if skipWs r = [] then some v else none
  | none => none

/-- Escape a string for `JSON.stringify` (quote, backslash and the common
control characters; the claims only stringify plain texts). -/
def escapeJsonChars : List Char → List Char
  | [] => []
  | c :: rest =>
    if c = '"' then '\\' :: '"' :: escapeJsonChars rest
    else if c = '\\' then '\\' :: '\\' :: escapeJsonChars rest
    else if c = '\n' then '\\' :: 'n' :: escapeJsonChars rest
    else if c = '\t' then '\\' :: 't' :: escapeJsonChars rest
    else if c = '\r' then '\\' :: 'r' :: escapeJsonChars rest
    else c :: escapeJsonChars rest

mutual

/-- Model of JS `JSON.stringify` on parsed values. -/
def jsonStringify : Json → String
  | .jnull => "null"
  | .jbool b => if b then "true" else "false"
  | .jnum l => l
  | .jstr s => "\"" ++ ⟨escapeJsonChars s.data⟩ ++ "\""
  | .jarr xs => "[" ++ String.intercalate "," (jsonStringifyList xs) ++ "]"
  | .jobj fs => "\x7b" ++ String.intercalate "," (jsonStringifyFields fs) ++ "\x7d"

/-- `jsonStringify` mapped over array elements. -/
def jsonStringifyList : List Json → List String
  | [] => []
  | x :: xs => jsonStringify x :: jsonStringifyList xs

/-- `jsonStringify` mapped over object members (`"key":value`). -/
def jsonStringifyFields : List (String × Json) → List String
  | [] => []
  | f :: fs =>
    ("\"" ++ (⟨escapeJsonChars f.1.data⟩ : String) ++ "\"" ++ ":" ++ jsonStringify f.2)
      :: jsonStringifyFields fs

end

/-! ### Data model (`[id].tsx` lines 25-63 and 1543-1578) -/

/-- The id-like and text-like fields an option object may carry.  The
source reads them with `opt.id || opt.optionId || ...` (copy 1) and
`opt?.text ?? opt?.optionText ?? ...` (copy 2); fields are modelled as
optional strings, `none` playing the role of an absent/undefined field. -/
structure ObjFields where
  id : Option String := none
  optionId : Option String := none
  option_id : Option String := none
  text : Option String := none
  optionText : Option String := none
  option_text : Option String := none
  label : Option String := none
  content : Option String := none
  value : Option String := none
  body : Option String := none
  title : Option String := none
  name : Option String := none
  option : Option String := none
deriving Repr, DecidableEq

/-- One raw option as received from the API: a string, a number, an object,
or another JS value (`null`, `undefined`, a boolean). -/
inductive RawOption where
  | str (s : String)
  | num (n : Int)
  | obj (fields : ObjFields)
  | jsNull
  | jsUndef
  | boolv (b : Bool)
deriving Repr, DecidableEq

/-- The raw `options` field of a question: either not an array
(`null`/`undefined`/other non-array values, all handled alike by copy 1's
guard `!options || !Array.isArray(options)`) or an array of raw options. -/
inductive RawOpts where
  | noArr (descr : String)
  | arr (elems : List RawOption)
deriving Repr, DecidableEq

/-- Canonical option `{id, text}`; copy 2 additionally records the original
index. -/
structure Opt where
  id : String
  text : String
  index : Option Nat := none
deriving Repr, DecidableEq

/-- The raw `correctAnswer` field when present: a scalar string or a
language-level array of strings. -/
inductive RawAnswer where
  | rstr (s : String)
  | rlist (l : List String)
deriving Repr, DecidableEq

/-- The four question types. -/
inductive QType where
  | MULTIPLE_CHOICE
  | MULTI_SELECT
  | TRUE_FALSE
  | FILL_IN_BLANK
deriving Repr, DecidableEq

/-- A question, restricted to the fields the subsystem reads.  `id` is a
plain string per the `Question` interface; `correct_answer` is the
alternative field name probed by copy 2's evaluator. -/
structure Question where
  id : String
  type : QType
  options : RawOpts
  correctAnswer : Option RawAnswer := none
  correct_answer : Option RawAnswer := none
  points : Nat := 1
deriving Repr, DecidableEq

/-! ### OptionNormalizer, copy 1 (`normalizeOptions`, lines 128-162) -/

/-- Positional letter index `A`, `B`, ... — `String.fromCharCode(65 + index)`. -/
def letterIndex (i : Nat) : String := String.singleton (Char.ofNat (65 + i))

/-- JS `a || b` where `a` is an optional string field: fall through on an
absent field or an empty (falsy) string. -/
def jsOr (a : Option String) (b : String) : String :=
  match a with
  | some s => if s = "" then b else s
  | none => b

/-- JS `a ?? b ?? ... ?? ""`: first present field, even if empty. -/
def firstSome (l : List (Option String)) : String :=
  match l.findSome? (fun x => x) with
  | some s => s
  | none => ""

/-- The `(id, text)` pair computed for one raw option at index `i` by copy
1, before the final `String(text).trim()`. -/
def rawIdText (i : Nat) : RawOption → String × String
  | .str s => (s, s)
  | .num n => (letterIndex i, toString n)
  | .obj f =>
    (jsOr f.id (jsOr f.optionId (jsOr f.option_id (letterIndex i))),
     jsOr f.text (jsOr f.optionText (jsOr f.option_text (jsOr f.label
       (jsOr f.content (jsOr f.value (letterIndex i)))))))
  | .jsNull => (letterIndex i, "")
  | .jsUndef => (letterIndex i, "")
  | .boolv b => (letterIndex i, if b then "true" else "")

/-- One mapped element of copy 1's `normalizeOptions`:
`{ id, text: String(text).trim() }`. -/
def normalizeElem (i : Nat) (o : RawOption) : Opt :=
  let p := rawIdText i o
  { id := p.1, text := strTrim p.2 }

/-- The indexed map underlying copy 1's `options.map((opt, index) => ...)`. -/
def normalizeList : Nat → List RawOption → List Opt
  | _, [] => []
  | i, o :: rest => normalizeElem i o :: normalizeList (i + 1) rest

/-- Copy 1's `normalizeOptions` (lines 128-162): non-arrays yield `[]`,
arrays are mapped elementwise and entries with empty trimmed text are
dropped. -/
def normalizeOptions : RawOpts → List Opt
  | .noArr _ => []
  | .arr l => (normalizeList 0 l).filter (fun o => o.text ≠ "")

/-! ### OptionNormalizer, copy 2 (`normalizeOptions`, lines 1590-1623) -/

/-- The `(id, text)` pair computed by copy 2 for one raw option: numbers and
other non-string non-object values become pure letter placeholders, objects
use a nullish-coalescing field chain, and `id` falls back to the letter when
the resolved text is empty. -/
def rawIdTextV2 (i : Nat) : RawOption → String × String
  | .str s => (s, s)
  | .num _ => (letterIndex i, letterIndex i)
  | .obj f =>
    let text := firstSome [f.text, f.optionText, f.option_text, f.label,
      f.content, f.body, f.title, f.name, f.value, f.option]
    (if text = "" then letterIndex i else text, text)
  | .jsNull => (letterIndex i, letterIndex i)
  | .jsUndef => (letterIndex i, letterIndex i)
  | .boolv _ => (letterIndex i, letterIndex i)

/-- One mapped element of copy 2's `normalizeOptions` (text is not trimmed
there). -/
def normalizeElemV2 (i : Nat) (o : RawOption) : Opt :=
  let p := rawIdTextV2 i o
  { id := p.1, text := p.2, index := some i }

/-- The indexed map underlying copy 2's `normalizeOptions`. -/
def normalizeListV2 : Nat → List RawOption → List Opt
  | _, [] => []
  | i, o :: rest => normalizeElemV2 i o :: normalizeListV2 (i + 1) rest

/-- Copy 2's `normalizeOptions` (lines 1590-1623): `(options || [])` is
mapped elementwise and entries whose (untrimmed) text is exactly `""` are
dropped.  A truthy non-array `options` value would throw in JS; the falsy
path is the one modelled by `noArr`. -/
def normalizeOptionsV2 : RawOpts → List Opt
  | .noArr _ => []
  | .arr l => (normalizeListV2 0 l).filter (fun o => o.text ≠ "")

/-! ### AnswerResolver, copy 1 (`parseCorrectAnswer`,
`getSingleCorrectAnswerText`, lines 171-268) -/

/-- Result of `parseCorrectAnswer`: `null`, a plain string, or a parsed
array (JSON-decoded, so elements are arbitrary JSON values). -/
inductive Parsed where
  | pnull
  | pstr (s : String)
  | parr (elems : List Json)
deriving Repr, BEq

/-- Copy 1's `parseCorrectAnswer` (lines 171-190): strings are tentatively
JSON-parsed and returned as arrays when they decode to one, otherwise
returned verbatim; native arrays pass through. -/
def parseCorrectAnswer : Option RawAnswer → Parsed
  | none => .pnull
  | some (.rstr s) =>
    match jsonParse s with
    | some (.jarr xs) => .parr xs
    | _ => .pstr s
  | some (.rlist l) => .parr (l.map .jstr)

/-- JS truthiness of a `Parsed` value (`!parsedCorrectAnswer`). -/
def parsedTruthy : Parsed → Bool
  | .pnull => false
  | .pstr s => s ≠ ""
  | .parr _ => true

/-- JS `String(answer)` on a `Parsed` value. -/
def parsedToString : Parsed → String
  | .pnull => "null"
  | .pstr s => s
  | .parr xs => String.intercalate "," (jsStringList xs)

/-- Copy 1's `getSingleCorrectAnswerText` (lines 218-268), the scalar
answer resolver: special-case `"true"`/`"false"`, then numeric index
(1-based before 0-based) when options exist, then case-insensitive id
match, text match, single-character id-prefix match, and finally the raw
answer unchanged. -/
def getSingleCorrectAnswerText (answer : Parsed) (options : List Opt) : String :=
  match answer with
  | .pnull => ""
  | a =>
    let answerStr := strLower (strTrim (parsedToString a))
    if answerStr = "true" ∨ answerStr = "false" then
      if answerStr = "true" then "True" else "False"
    else
      let numBranch : Option String :=
        if options.length > 0 then
          match jsNumberInt answerStr with
          | some n =>
            if 0 < n ∧ n ≤ (options.length : Int) then
              some (options.getD (n - 1).toNat { id := "", text := "" }).text
            else if 0 ≤ n ∧ n < (options.length : Int) then
              some (options.getD n.toNat { id := "", text := "" }).text
            else none
          | none => none
        else none
      match numBranch with
      | some t => t
      | none =>
        match options.find? (fun o => strLower o.id == answerStr) with
        | some o => o.text
        | none =>
          match options.find? (fun o => strLower o.text == answerStr) with
          | some o => o.text
          | none =>
            if answerStr.length = 1 then
              match options.find? (fun o => (strLower o.id).startsWith answerStr) with
              | some o => o.text
              | none => parsedToString a
            else parsedToString a

/-! ### CorrectnessEvaluator, copy 1 (`isAnswerCorrect`, lines 273-356) -/

/-- The pipe-splitting fallback `answer.split("|").map(s => s.trim()).filter(Boolean)`. -/
def splitPipe (u : String) : List String :=
  ((u.splitOn "|").map strTrim).filter (fun s => s ≠ "")

/-- Stable insertion of `x` into a list sorted by the JS default string
order of `key`. -/
def insertByStr {α : Type} (key : α → String) (x : α) : List α → List α
  | [] => [x]
  | y :: ys => if strLt (key y) (key x) then y :: insertByStr key x ys else x :: y :: ys

/-- Model of JS `Array.prototype.sort()` with no comparator: stable sort by
the string form of the elements. -/
def sortByStr {α : Type} (key : α → String) : List α → List α
  | [] => []
  | x :: xs => insertByStr key x (sortByStr key xs)

/-- Copy 1's `isAnswerCorrect` (lines 273-356).  Guards: empty user answer
and missing or falsy-parsing correct answer yield `false`.  MULTI_SELECT
resolves both sides to option texts, sorts and compares the
`JSON.stringify` forms; FILL_IN_BLANK compares trimmed lowercased strings;
TRUE_FALSE collapses both sides to `"true"`/`"false"` tokens;
MULTIPLE_CHOICE resolves both sides to texts and compares
case-insensitively.  (When the user answer of a MULTI_SELECT question
JSON-parses to a non-array the JS code would throw mapping over it; that
unreachable-in-the-claims path is modelled as the empty selection.) -/
def isAnswerCorrect (question : Question) (userAnswer : String) : Bool :=
  if userAnswer = "" then false
  else
    match question.correctAnswer with
    | none => false
    | some ca =>
      let options := normalizeOptions question.options
      let parsedCorrectAnswer := parseCorrectAnswer (some ca)
      if parsedTruthy parsedCorrectAnswer = false then false
      else if question.type = .MULTI_SELECT then
        let userSelected : List Json :=
          match jsonParse userAnswer with
          | some (.jarr xs) => xs
          | some _ => []
          | none => (splitPipe userAnswer).map .jstr
        let correctArray : List String :=
          match parsedCorrectAnswer with
          | .parr xs => jsStringList xs
          | .pstr s => [s]
          | .pnull => ["null"]
        let userTexts :=
          sortByStr jsString ((userSelected.map (fun sel =>
            match options.find? (fun o => jsEqStr sel o.id || jsEqStr sel o.text) with
            | some o => if o.text ≠ "" then Json.jstr o.text else sel
            | none => sel)).filter jsTruthy)
        let correctTexts :=
          sortByStr (fun s => s) ((correctArray.map (fun corr =>
            match options.find? (fun o => o.id == corr || o.text == corr) with
            | some o => if o.text ≠ "" then o.text else corr
            | none => corr)).filter (fun s => s ≠ ""))
        jsonStringify (Json.jarr userTexts) == jsonStringify (Json.jarr (correctTexts.map .jstr))
      else if question.type = .FILL_IN_BLANK then
        let correctStr := strLower (strTrim (match parsedCorrectAnswer with
          | .parr xs =>
            match xs.head? with
            | some j => if jsTruthy j then jsString j else ""
            | none => ""
          | .pstr s => if s ≠ "" then s else ""
          | .pnull => ""))
        strLower (strTrim userAnswer) == correctStr
      else if question.type = .TRUE_FALSE then
        let correctStr := strLower (parsedToString parsedCorrectAnswer)
        let userStr := strLower (strTrim userAnswer)
        (if userStr = "true" then "true" else "false")
          == (if correctStr = "true" then "true" else "false")
      else
        let correctText := getSingleCorrectAnswerText parsedCorrectAnswer options
        let userText :=
          match options.find? (fun o => o.id == userAnswer || o.text == userAnswer) with
          | some o => if o.text ≠ "" then o.text else userAnswer
          | none => userAnswer
        strLower userText == strLower correctText

/-! ### SubmissionEncoder, copy 1 (`prepareAnswersForSubmit`, lines 358-405) -/

/-- Model of `answers[qId] || ""` over the answers map (modelled as an
association list; the screens key it by question id, one entry per id). -/
def lookupAnswer (answers : List (String × String)) (k : String) : String :=
  match answers.find? (fun p => p.1 == k) with
  | some p => p.2
  | none => ""

/-- Copy 1's `prepareAnswersForSubmit` (lines 358-405).  Questions whose
answer is absent or empty are skipped (`if (!answer) continue`); the rest
are encoded per type: FILL_IN_BLANK as trimmed text, MULTI_SELECT as a JSON
array of option ids, TRUE_FALSE as a `"true"`/`"false"` token,
MULTIPLE_CHOICE as the matched option id or the raw answer. -/
def prepareAnswersForSubmit (questions : List Question)
    (answers : List (String × String)) : List (String × String) :=
  questions.foldl (fun result q =>
    let answer := lookupAnswer answers q.id
    if answer = "" then result
    else
      let options := normalizeOptions q.options
      if q.type = .FILL_IN_BLANK then result ++ [(q.id, strTrim answer)]
      else if q.type = .MULTI_SELECT then
        let selected : List Json :=
          match jsonParse answer with
          | some (.jarr xs) => xs
          | some _ => []
          | none => (splitPipe answer).map .jstr
        let selectedIds := (selected.map (fun sel =>
          match options.find? (fun o => jsEqStr sel o.text || jsEqStr sel o.id) with
          | some o => if o.id ≠ "" then Json.jstr o.id else sel
          | none => sel)).filter jsTruthy
        result ++ [(q.id, jsonStringify (Json.jarr selectedIds))]
      else if q.type = .TRUE_FALSE then
        result ++ [(q.id, if strLower (strTrim answer) = "true" then "true" else "false")]
      else
        match options.find? (fun o => o.text == answer || o.id == answer) with
        | some o => result ++ [(q.id, if o.id ≠ "" then o.id else answer)]
        | none => result ++ [(q.id, answer)]) []

/-! ### AnswerResolver and CorrectnessEvaluator, copy 2
(`getNormalizedSingleAnswer`, `getNormalizedCorrectAnswer`,
`isAnswerCorrect` variant, lines 1625-1655 and 2061-2093) -/

/-- Copy 2's `getNormalizedSingleAnswer` (lines 1635-1655): trim, then a
0-based-only numeric index lookup, then a case-sensitive id/text match,
else the trimmed answer itself. -/
def getNormalizedSingleAnswer (answer : String) (options : List Opt) : String :=
  let answerStr := strTrim answer
  let numHit : Option String :=
    match jsNumberInt answerStr with
    | some n =>
      if 0 ≤ n ∧ n < (options.length : Int) then
        some (options.getD n.toNat { id := "", text := "" }).text
      else none
    | none => none
  match numHit with
  | some t => t
  | none =>
    match options.find? (fun o => o.id == answerStr || o.text == answerStr) with
    | some o => o.text
    | none => answerStr

/-- Result of copy 2's `getNormalizedCorrectAnswer`: a string or an array
of strings. -/
inductive NormCorrect where
  | nstr (s : String)
  | nlist (l : List String)
deriving Repr, BEq

/-- Copy 2's `getNormalizedCorrectAnswer` (lines 1625-1633). -/
def getNormalizedCorrectAnswer : Option RawAnswer → List Opt → NormCorrect
  | none, _ => .nstr ""
  | some (.rlist l), options =>
    .nlist ((l.map (fun ca => getNormalizedSingleAnswer ca options)).filter (fun s => s ≠ ""))
  | some (.rstr s), options => .nstr (getNormalizedSingleAnswer s options)

/-- Copy 2's `isAnswerCorrect` (lines 2061-2093): probes
`correctAnswer ?? correct_answer`, resolves through
`getNormalizedCorrectAnswer`, and compares — MULTI_SELECT by sorted string
arrays, FILL_IN_BLANK by trimmed lowercased strings, everything else
(TRUE_FALSE included) by trimmed case-sensitive strings. -/
def isAnswerCorrectV2 (question : Question) (answer : String) : Bool :=
  match question.correctAnswer.orElse (fun _ => question.correct_answer) with
  | none => false
  | some rc =>
    let opts := normalizeOptionsV2 question.options
    let normalizedCorrect := getNormalizedCorrectAnswer (some rc) opts
    if question.type = .MULTI_SELECT then
      let correctArr := sortByStr (fun s => s) (match normalizedCorrect with
        | .nlist l => l
        | .nstr s => if s ≠ "" then [s] else [])
      let userArr0 : List String :=
        match jsonParse (if answer = "" then "[]" else answer) with
        | some (.jarr xs) => jsStringList xs
        | some _ => splitPipe answer
        | none => splitPipe answer
      let userArr := sortByStr (fun s => s)
        ((userArr0.map (fun a => getNormalizedSingleAnswer a opts)).filter (fun s => s ≠ ""))
      correctArr == userArr
    else if question.type = .FILL_IN_BLANK then
      let correct := match normalizedCorrect with
        | .nlist l => l.headD ""
        | .nstr s => s
      strLower (strTrim answer) == strLower (strTrim correct)
    else
      let correct := match normalizedCorrect with
        | .nlist l => l.headD ""
        | .nstr s => s
      strTrim (getNormalizedSingleAnswer answer opts) == strTrim correct

/-! ### SubmissionEncoder, copy 2 (`prepareAnswersForSubmit` variant,
lines 1657-1695) -/

/-- Copy 2's `getQuestionId` (`q.id ?? q._id`; `id` is a plain string per
the `Question` interface, so it is always the value used). -/
def getQuestionIdV2 (q : Question) : String := q.id

/-- Copy 2's `prepareAnswersForSubmit` (lines 1657-1695).  Every question
with a truthy id receives an entry, answered or not: FILL_IN_BLANK as
trimmed text, MULTI_SELECT as a JSON array of resolved non-empty texts,
everything else as the resolved single answer. -/
def prepareAnswersForSubmitV2 (questions : List Question)
    (answers : List (String × String)) : List (String × String) :=
  questions.foldl (fun result q =>
    let qId := getQuestionIdV2 q
    if qId = "" then result
    else
      let val := lookupAnswer answers qId
      let normalizedOpts := normalizeOptionsV2 q.options
      if q.type = .FILL_IN_BLANK then result ++ [(qId, strTrim val)]
      else if q.type = .MULTI_SELECT then
        let arr0 : List String :=
          if val = "" then []
          else
            match jsonParse val with
            | some (.jarr xs) => (jsStringList xs).filter (fun s => s ≠ "")
            | some _ => []
            | none => if val.contains '|' then splitPipe val else [val]
        let arr := (arr0.map (fun a => getNormalizedSingleAnswer a normalizedOpts)).filter (fun s => s ≠ "")
        result ++ [(qId, jsonStringify (Json.jarr (arr.map .jstr)))]
      else
        result ++ [(qId, getNormalizedSingleAnswer val normalizedOpts)]) []

/-! ### AttemptSession (`QuizScreen` state, lines 757-1283)

The active session's mutable state and the operations that touch it.  In
the source the only writes to `checkedQuestions` are its `useState(new
Set())` initialiser and `setCheckedQuestions((prev) => new Set(prev).add(qId))`
inside `handleCheckAnswer` (lines 768 and 929; likewise 1979 and 2107 in
copy 2) — no handler deletes from or resets the set while the attempt is
active. -/

/-- Client-side state of one active attempt. -/
structure SessionState where
  answers : List (String × String)
  checkedQuestions : List String
  currentIndex : Nat
  timeRemaining : Int
  submitting : Bool
deriving Repr

/-- The operations of the active session that write state: answering the
question (`setAnswers` merge, line 1139), checking the current answer
(`handleCheckAnswer`), navigating (`setCurrentIndex`), the timer tick
(`setTimeRemaining`), and toggling the in-flight submission flag. -/
inductive SessionOp where
  | selectAnswer (qid val : String)
  | checkAnswer
  | goToQuestion (i : Nat)
  | tick (t : Int)
  | setSubmitting (b : Bool)
deriving Repr

/-- Object-spread update `{ ...prev, [qid]: val }` on the answers map. -/
def upsert (m : List (String × String)) (k v : String) : List (String × String) :=
  if (m.find? (fun p => p.1 == k)).isSome then
    m.map (fun p => if p.1 == k then (k, v) else p)
  else m ++ [(k, v)]

/-- One step of the active session.  `checkAnswer` models
`handleCheckAnswer`: it adds the current question's id to the checked set
(`Set.add`, a no-op when already present) and changes nothing else; the
out-of-range current index (which would throw in JS and is unreachable from
the UI) is modelled as a no-op. -/
def stepSession (questions : List Question) (s : SessionState) : SessionOp → SessionState
  | .selectAnswer qid val => { s with answers := upsert s.answers qid val }
  | .checkAnswer =>
    match questions[s.currentIndex]? with
    | some q => { s with checkedQuestions := s.checkedQuestions.insert q.id }
    | none => s
  | .goToQuestion i => { s with currentIndex := i }
  | .tick t => { s with timeRemaining := t }
  | .setSubmitting b => { s with submitting := b }

/-! ### Concrete fixtures used by the claims -/

/-- The raw option list `[{id:"A",text:"Paris"},{id:"B",text:"Lyon"}]`. -/
def parisLyonRaw : RawOpts :=
  .arr [.obj { id := some "A", text := some "Paris" },
        .obj { id := some "B", text := some "Lyon" }]

/-- Its normalized form as fed to the scalar resolvers. -/
def parisLyonOpts : List Opt := normalizeOptions parisLyonRaw

/-- The raw string option list `["Paris","Lyon","Nice"]`. -/
def parisOptionsRaw : RawOpts := .arr [.str "Paris", .str "Lyon", .str "Nice"]

/-- MULTIPLE_CHOICE question with options `["Paris","Lyon","Nice"]` and
`correctAnswer: "0"`. -/
def mcqParis : Question :=
  { id := "q5", type := .MULTIPLE_CHOICE, options := parisOptionsRaw,
    correctAnswer := some (.rstr "0") }

/-- MULTI_SELECT question with options
`[{id:"A",text:"Cat"},{id:"B",text:"Dog"}]` and correct answer
`'["A","B"]'`. -/
def msCatDog : Question :=
  { id := "q3", type := .MULTI_SELECT,
    options := .arr [.obj { id := some "A", text := some "Cat" },
                     .obj { id := some "B", text := some "Dog" }],
    correctAnswer := some (.rstr "[\"A\",\"B\"]") }

/-- FILL_IN_BLANK question with `correctAnswer: "Paris"`. -/
def fillParis : Question :=
  { id := "q6", type := .FILL_IN_BLANK, options := .arr [],
    correctAnswer := some (.rstr "Paris") }

/-- FILL_IN_BLANK question whose correct answer is the empty string. -/
def fillEmptyCorrect : Question :=
  { id := "q6", type := .FILL_IN_BLANK, options := .arr [],
    correctAnswer := some (.rstr "") }

/-- A question with no stored answer, as submitted at encoding time. -/
def unansweredFill : Question :=
  { id := "q1", type := .FILL_IN_BLANK, options := .arr [] }

/-- The value copy 1's FILL_IN_BLANK branch compares against: the first
element of the JSON-parsed correct answer (no option lookup), with JS falsy
values collapsing to `""`. -/
def fillResolvedCorrect (c : String) : String :=
  match parseCorrectAnswer (some (.rstr c)) with
  | .parr xs =>
    match xs.head? with
    | some j => if jsTruthy j then jsString j else ""
    | none => ""
  | .pstr s => if s ≠ "" then s else ""
  | .pnull => ""

/-- A one-question quiz for exercising the session machine. -/
def demoQuestions : List Question := [unansweredFill]

/-- A mid-attempt session state with one question already checked. -/
def demoSession : SessionState :=
  { answers := [], checkedQuestions := ["q0"], currentIndex := 0,
    timeRemaining := 30, submitting := false }

/-! ### Helper lemmas on trimming -/

/-- The head surviving `dropWhile` fails the predicate. -/
theorem head_dropWhile {α : Type} (p : α → Bool) :
    ∀ (l : List α) (c : α) (r : List α), l.dropWhile p = c :: r → p c = false := by
  intro l
  induction l with
  | nil => intro c r h; simp [List.dropWhile] at h
  | cons a t ih =>
    intro c r h
    by_cases hp : p a
    · rw [List.dropWhile_cons, if_pos hp] at h
      exact ih c r h
    · rw [List.dropWhile_cons, if_neg hp] at h
      cases h
      exact Bool.eq_false_iff.mpr hp

/-- If trimming empties a character list, every character was whitespace. -/
theorem trimChars_eq_nil {m : List Char} (h : trimChars m = []) :
    ∀ c ∈ m, isJsWS c = true := by
  unfold trimChars at h
  rw [List.reverse_eq_nil_iff] at h
  have h2 : ∀ x ∈ (m.dropWhile isJsWS).reverse, isJsWS x = true :=
    List.dropWhile_eq_nil_iff.mp h
  have h3 : ∀ x ∈ m.dropWhile isJsWS, isJsWS x = true := by
    intro x hx
    exact h2 x (List.mem_reverse.mpr hx)
  intro c hc
  rw [← List.takeWhile_append_dropWhile (p := isJsWS) (l := m)] at hc
  rcases List.mem_append.mp hc with h4 | h4
  · exact List.mem_takeWhile_imp h4
  · exact h3 c h4

/-- The head of a trimmed character list is not whitespace. -/
theorem head_trimChars {m : List Char} {c : Char} {r : List Char}
    (h : trimChars m = c :: r) : isJsWS c = false := by
  have hsuf : (m.dropWhile isJsWS).reverse.dropWhile isJsWS <:+ (m.dropWhile isJsWS).reverse :=
    List.dropWhile_suffix isJsWS
  have hpre : ((m.dropWhile isJsWS).reverse.dropWhile isJsWS).reverse <+: m.dropWhile isJsWS := by
    have h2 := List.reverse_prefix.mpr hsuf
    simpa using h2
  unfold trimChars at h
  rw [h] at hpre
  obtain ⟨t, ht⟩ := hpre
  exact head_dropWhile isJsWS m c (r ++ t) (by rw [← ht]; simp)

/-- Trimming is idempotent on non-emptiness: a trimmed list that is
non-empty stays non-empty when trimmed again. -/
theorem trimChars_trimChars_ne_nil {m : List Char} (h : trimChars m ≠ []) :
    trimChars (trimChars m) ≠ [] := by
  intro hnil
  match hm : trimChars m with
  | [] => exact h hm
  | c :: r =>
    rw [hm] at hnil
    have hws := trimChars_eq_nil hnil c (by simp)
    have hnot := head_trimChars hm
    rw [hws] at hnot
    simp at hnot

/-- String version: `strTrim s ≠ "" → strTrim (strTrim s) ≠ ""`. -/
theorem strTrim_strTrim_ne {s : String} (h : strTrim s ≠ "") :
    strTrim (strTrim s) ≠ "" := by
  intro hnil
  have h2 : trimChars (trimChars s.data) = [] := congrArg String.data hnil
  have h3 : trimChars s.data = [] := by
    by_contra hne
    exact trimChars_trimChars_ne_nil hne h2
  exact h (String.ext h3)

/-- Every element of `normalizeList` is `normalizeElem` at some index. -/
theorem mem_normalizeList {o : Opt} :
    ∀ (i : Nat) (l : List RawOption), o ∈ normalizeList i l →
      ∃ j r, o = normalizeElem j r := by
  intro i l
  induction l generalizing i with
  | nil => intro h; simp [normalizeList] at h
  | cons a t ih =>
    intro h
    rw [normalizeList] at h
    rcases List.mem_cons.mp h with h1 | h2
    · exact ⟨i, a, h1⟩
    · exact ih (i + 1) h2

/-- Copy 1's per-string mapping, index-independent. -/
theorem normalizeList_strings (l : List String) :
    ∀ i, normalizeList i (l.map .str) =
      l.map (fun s => ({ id := s, text := strTrim s } : Opt)) := by
  induction l with
  | nil => intro i; simp [normalizeList]
  | cons a t ih =>
    intro i
    simp [normalizeList, normalizeElem, rawIdText, ih (i + 1)]

/-! ### Claim theorems -/

/-- C1: the copy-1 `prepareAnswersForSubmit` (lines 358-405) drops a
question whose answer is absent — submitting a one-question quiz with an
empty answers map produces an empty payload, while the copy-2 encoder
(lines 1657-1695, matching SUBMISSION_DEBUG.md's documented fix) emits an
empty-string entry for the same question. -/
theorem submit_skips_unanswered_question :
    prepareAnswersForSubmit [unansweredFill] [] = [] ∧
    prepareAnswersForSubmitV2 [unansweredFill] [] = [("q1", "")] := by
  constructor <;> rfl

/-- C2 counterexample: resolving the scalar `"1"` against
`[{id:"A",text:"Paris"},{id:"B",text:"Lyon"}]` via
`getSingleCorrectAnswerText` does not yield `"Lyon"`. -/
theorem resolve_one_not_lyon :
    getSingleCorrectAnswerText (.pstr "1") parisLyonOpts ≠ "Lyon" := by
  decide

/-- C2 amended: `getSingleCorrectAnswerText` resolves `"1"` to `"Paris"`
(the 1-based reading takes precedence, so `"1"` denotes the first option),
while the copy-2 resolver `getNormalizedSingleAnswer` uses only 0-based
indexing and resolves `"1"` to `"Lyon"`. -/
theorem resolve_one_paris_vs_lyon :
    getSingleCorrectAnswerText (.pstr "1") parisLyonOpts = "Paris" ∧
    getNormalizedSingleAnswer "1" parisLyonOpts = "Lyon" := by
  constructor <;> rfl

/-- C3: for the MULTI_SELECT question with options
`[{id:"A",text:"Cat"},{id:"B",text:"Dog"}]` and correct answer
`'["A","B"]'`, the user answer `'["Dog","Cat"]'` (texts, reverse order)
evaluates as correct via `isAnswerCorrect`. -/
theorem multiselect_roundtrip_correct :
    isAnswerCorrect msCatDog "[\"Dog\",\"Cat\"]" = true := by
  rfl

/-- C4: for every question type, every options value and every user answer,
both evaluators return `false` (and, being total Lean functions, cannot
throw) when the question carries no correct answer. -/
theorem isCorrect_false_when_no_correctAnswer (t : QType) (v : RawOpts)
    (qid u : String) :
    isAnswerCorrect { id := qid, type := t, options := v } u = false ∧
    isAnswerCorrectV2 { id := qid, type := t, options := v } u = false := by
  constructor
  · by_cases h : u = "" <;> simp [isAnswerCorrect, h]
  · simp [isAnswerCorrectV2, Option.orElse]

/-- C5: with string options `["Paris","Lyon","Nice"]` and correct answer
`"0"`, the resolver yields `"Paris"` (0-based fallback, since the 1-based
reading of `0` is out of range) and `isAnswerCorrect` accepts the user
answer `"Paris"`. -/
theorem mcq_zero_based_paris :
    getSingleCorrectAnswerText (.pstr "0") (normalizeOptions parisOptionsRaw) = "Paris" ∧
    isAnswerCorrect mcqParis "Paris" = true := by
  constructor <;> rfl

/-- C6 counterexample: with correct answer `""` and user answer `""` the
trimmed lowercased strings are equal, yet `isAnswerCorrect` returns
`false` — the claimed if-and-only-if fails at this input. -/
theorem fill_empty_not_iff :
    isAnswerCorrect fillEmptyCorrect "" = false ∧
    (strLower (strTrim "") == strLower (strTrim "")) = true := by
  constructor <;> rfl

/-- C6 amended: provided the user answer and the correct-answer string are
non-empty, FILL_IN_BLANK correctness is exactly trimmed ASCII-lowercased
string equality of the user answer against the resolved correct answer
(the first element of the JSON-parsed correct answer, no option lookup);
in particular the `"Paris"` / `"  paris "` example evaluates to `true`. -/
theorem fill_trim_lower_iff :
    (∀ (v : RawOpts) (qid c u : String), u ≠ "" → c ≠ "" →
      isAnswerCorrect
        { id := qid, type := .FILL_IN_BLANK, options := v,
          correctAnswer := some (.rstr c) } u
        = (strLower (strTrim u) == strLower (strTrim (fillResolvedCorrect c)))) ∧
    isAnswerCorrect fillParis "  paris " = true := by
  constructor
  · intro v qid c u hu hc
    cases hj : jsonParse c with
    | none =>
      simp [isAnswerCorrect, fillResolvedCorrect, parseCorrectAnswer, hj,
        parsedTruthy, hu, hc]
    | some j =>
      cases j <;>
        simp [isAnswerCorrect, fillResolvedCorrect, parseCorrectAnswer, hj,
          parsedTruthy, hu, hc]
  · rfl

/-- C6 witness: the hypotheses of the amended equivalence are satisfiable
and yield the Paris example. -/
theorem fill_trim_lower_iff_witness :
    isAnswerCorrect
      { id := "q6", type := QType.FILL_IN_BLANK, options := .arr [],
        correctAnswer := some (.rstr "Paris") } "  paris "
      = (strLower (strTrim "  paris ") == strLower (strTrim (fillResolvedCorrect "Paris"))) :=
  fill_trim_lower_iff.1 (.arr []) "q6" "Paris" "  paris " (by decide) (by decide)

/-- C7 counterexample: a raw list of pure strings can produce an option
whose `id` differs from its `text`, because copy 1 trims the text but not
the id. -/
theorem normalize_string_id_ne_text :
    normalizeOptions (.arr [.str " Paris "]) = [{ id := " Paris ", text := "Paris" }] ∧
    (" Paris " : String) ≠ "Paris" := by
  constructor
  · rfl
  · decide

/-- C7 amended: for raw option lists composed purely of strings, copy 1's
`normalizeOptions` keeps the original order, sets `id` to the raw string
and `text` to its trim (so `id === text` exactly for strings without
surrounding whitespace), and drops strings that trim to empty. -/
theorem normalizeOptions_pure_strings (l : List String) :
    normalizeOptions (.arr (l.map .str)) =
      (l.map (fun s => ({ id := s, text := strTrim s } : Opt))).filter
        (fun o => o.text ≠ "") := by
  rw [normalizeOptions, normalizeList_strings l 0]

/-- C8 counterexample: copy 2's `normalizeOptions` (lines 1590-1623) only
drops options whose text is exactly `""`, so an all-whitespace string
option survives with a text that is empty after trimming. -/
theorem normalizeV2_keeps_whitespace_text :
    normalizeOptionsV2 (.arr [.str " "]) = [{ id := " ", text := " ", index := some 0 }] ∧
    strTrim " " = "" := by
  constructor <;> rfl

/-- C8 amended: copy 1's `normalizeOptions` does guarantee the invariant —
for every raw `options` value of any element shapes, every option in its
output has non-empty text after trimming (and the embedding is a total
function, so no input shape raises). -/
theorem normalizeOptions_text_nonempty (v : RawOpts) (o : Opt)
    (h : o ∈ normalizeOptions v) : strTrim o.text ≠ "" := by
  cases v with
  | noArr d => simp [normalizeOptions] at h
  | arr l =>
    rw [normalizeOptions] at h
    have h2 := List.mem_filter.mp h
    obtain ⟨j, r, ho⟩ := mem_normalizeList 0 l h2.1
    have hne : o.text ≠ "" := by simpa using h2.2
    have htext : o.text = strTrim (rawIdText j r).2 := by rw [ho]; rfl
    rw [htext] at hne ⊢
    exact strTrim_strTrim_ne hne

/-- C8 witness: the invariant instantiated on a concrete normalized
option. -/
theorem normalizeOptions_text_nonempty_witness :
    strTrim (Opt.text { id := "Paris", text := "Paris" }) ≠ "" :=
  normalizeOptions_text_nonempty (.arr [.str "Paris"]) { id := "Paris", text := "Paris" }
    (by decide)

/-- C9: during one attempt the checked set only grows — every session
operation preserves membership in `checkedQuestions`, and the check-answer
operation adds the current question's id. -/
theorem checkedQuestions_monotone :
    (∀ (qs : List Question) (s : SessionState) (op : SessionOp) (x : String),
        x ∈ s.checkedQuestions → x ∈ (stepSession qs s op).checkedQuestions) ∧
    (∀ (qs : List Question) (s : SessionState) (q : Question),
        qs[s.currentIndex]? = some q →
          q.id ∈ (stepSession qs s .checkAnswer).checkedQuestions) := by
  constructor
  · intro qs s op x hx
    cases op with
    | selectAnswer qid val => simpa [stepSession] using hx
    | checkAnswer =>
      cases hq : qs[s.currentIndex]? with
      | none => simpa [stepSession, hq] using hx
      | some q =>
        simp [stepSession, hq, List.mem_insert_iff]
        exact Or.inr hx
    | goToQuestion i => simpa [stepSession] using hx
    | tick t => simpa [stepSession] using hx
    | setSubmitting b => simpa [stepSession] using hx
  · intro qs s q hq
    simp [stepSession, hq, List.mem_insert_self]

/-- C9 witness: on a concrete mid-attempt state, checking the current
question keeps the previously checked id and adds the current one. -/
theorem checkedQuestions_monotone_witness :
    "q0" ∈ (stepSession demoQuestions demoSession .checkAnswer).checkedQuestions ∧
    "q1" ∈ (stepSession demoQuestions demoSession .checkAnswer).checkedQuestions := by
  constructor
  · exact checkedQuestions_monotone.1 demoQuestions demoSession .checkAnswer "q0" (by decide)
  · exact checkedQuestions_monotone.2 demoQuestions demoSession unansweredFill (by decide)

/-- C10: for every non-array `options` value (null, undefined, or any
other non-array shape, all taken through the guard
`!options || !Array.isArray(options)`), copy 1's `normalizeOptions`
returns the empty list without throwing. -/
theorem normalizeOptions_non_array (d : String) :
    normalizeOptions (.noArr d) = [] := rfl

end QuizApp
